import Mathlib

/-!
Verification of the resumable batch-export engine of
`notion-exporter-to-google-drive` (Google Apps Script).

The embedding models the persisted script-property store, the trigger-based
continuation, the batch scheduler (`processBatchExport`, `startBatchExport`,
`cancelBatchExport`) and the differential exporter
(`exportDifferentialNotionPages`).  External collaborators (Notion API,
Docs conversion, spreadsheet UI) are abstracted into an environment whose
per-item outcomes drive the control flow exactly as in the source.
-/

deriving instance DecidableEq for Except

namespace NotionExport

/-- Status of one processing result (`'Success' | 'Fail' | 'Skipped'`).
The transient `'Processing'` value is always overwritten before a result is
recorded, so it does not appear in observable results. -/
inductive Status where
  | Success
  | Fail
  | Skipped
deriving DecidableEq, Repr

/-- One processing result object as pushed into `results` by the source. -/
structure ExportResult where
  pageId : String
  pageTitle : String
  status : Status
  message : String
  fileId : Option String := none
deriving DecidableEq, Repr

/-- A JSON string persisted in the property store: either it parses back to
the value it encodes, or it is corrupt (unparseable). -/
inductive Stored (α : Type) where
  | good (val : α)
  | corrupt
deriving DecidableEq, Repr

/-- One entry of the persisted processed-pages map
(`pageId -> {lastModified, docId, title}`).  `lastModified` is optional so a
stored entry with a missing timestamp field can be represented. -/
structure ItemEntry where
  lastModified : Option String
  docId : String
  title : String
deriving DecidableEq, Repr

/-- The persisted processed-pages map (a JS object, keyed by page id). -/
abbrev ItemState := List (String × ItemEntry)

/-- JS object lookup `m[k]` (first binding wins; JS objects have unique keys). -/
def stateLookup : ItemState → String → Option ItemEntry
  | [], _ => none
  | (k', v') :: rest, k => if k' = k then some v' else stateLookup rest k

/-- JS object assignment `m[k] = v`: replaces the binding if present,
otherwise appends it. -/
def stateSet : ItemState → String → ItemEntry → ItemState
  | [], k, v => [(k, v)]
  | (k', v') :: rest, k, v =>
      if k' = k then (k, v) :: rest else (k', v') :: stateSet rest k v

/-- One page returned by `getNotionDatabasePages`: its id, its
`last_edited_time` (absent for the spec's `t=None`), and the title that
`getPageTitle` extracts from it. -/
structure Page where
  id : String
  last_edited_time : Option String
  title : String
deriving DecidableEq, Repr

/-- The script-property store (`PropertiesService.getScriptProperties()`).
Numeric properties are written with `toString` and read with
`parseInt(x || '0')`, so they are modelled as the numbers themselves;
JSON-valued properties are modelled through `Stored` so corruption is
representable.  `none` is an absent property. -/
structure Store where
  notionApiKey : Option String := none
  batchInProgress : Option String := none
  currentBatchIndex : Option Nat := none
  totalPages : Option Nat := none
  processedPages : Option Nat := none
  batchPageIds : Option (Stored (List String)) := none
  batchStartedAt : Option String := none
  batchResults : Option (Stored (List ExportResult)) := none
  lastExportTimestamp : Option String := none
  processedPagesInfo : Option (Stored ItemState) := none
deriving DecidableEq, Repr

/-- The world an invocation can observe and mutate: the persisted store,
whether a `processBatchExport` time-based trigger is armed, and the rows
appended to the results spreadsheet by `recordResultsToSpreadsheet`. -/
structure World where
  store : Store
  triggerArmed : Bool
  sheetRows : List ExportResult
deriving DecidableEq, Repr

/-- Outcome of `getNotionPageById` for one id (`null` on any fetch error). -/
inductive FetchPage where
  | missing
  | found (title : String)
deriving DecidableEq, Repr

/-- Outcome of fetching blocks and running `convertBlocksToGoogleDocs` for
one page: a `{success:true}` return, a `{success:false}` return, or a thrown
exception (caught by the per-item `catch`). -/
inductive SaveOutcome where
  | ok (message fileId : String)
  | err (message : String)
  | thrown (message : String)
deriving DecidableEq, Repr

/-- The external collaborators of one invocation: whether `loadSettings`
succeeds, the database snapshot `getNotionDatabasePages` returns (it returns
`[]` on any listing failure), the per-id `getNotionPageById` outcome, the
per-id conversion outcome, and the current wall-clock ISO string. -/
structure Env where
  settingsOk : Bool
  pages : List Page
  fetchPage : String → FetchPage
  save : String → SaveOutcome
  now : String

/-- JS truthiness of an optional string (`undefined`, `null` and `''` are
falsy). -/
def truthy : Option String → Bool
  | none => false
  | some s => s ≠ ""

/-- JS `a < b` on two strings: lexicographic comparison by code unit. -/
def strLtB : List Char → List Char → Bool
  | [], [] => false
  | [], _ :: _ => true
  | _ :: _, [] => false
  | a :: as, b :: bs =>
      if a.toNat < b.toNat then true
      else if b.toNat < a.toNat then false
      else strLtB as bs

/-- JS `a < b` where `a` may be `undefined`: `undefined < s` is `false`
(a NaN comparison); two strings compare lexicographically. -/
def jsLtStr : Option String → String → Bool
  | none, _ => false
  | some a, b => strLtB a.data b.data

/-- JS `a || b` for an optional string `a` and string `b`. -/
def orElseStr (a : Option String) (b : String) : String :=
  match a with
  | none => b
  | some s => if s = "" then b else s

/-- `const BATCH_SIZE = 5` of `batchProcessor.js`. -/
def BATCH_SIZE : Nat := 5

/-- The per-item body of the chunk loop of `processBatchExport`
(lines 98-185): fetch the page by id (a `null` page yields a `Fail` result),
then convert; a `{success:false}` return or a thrown exception is caught and
recorded as a `Fail` result.  Every outcome yields exactly one result. -/
def processBatchItem (env : Env) (pageId : String) : ExportResult :=
  match env.fetchPage pageId with
  | .missing =>
      { pageId := pageId, pageTitle := "Unknown (ID: " ++ pageId ++ ")",
        status := .Fail, message := "ページ情報を取得できませんでした",
        fileId := none }
  | .found title =>
      match env.save pageId with
      | .ok msg fid =>
          { pageId := pageId, pageTitle := title, status := .Success,
            message := msg, fileId := some fid }
      | .err msg =>
          { pageId := pageId, pageTitle := title, status := .Fail,
            message := msg, fileId := none }
      | .thrown m =>
          { pageId := pageId, pageTitle := title, status := .Fail,
            message := "エラー: " ++ m, fileId := none }

/-- The batch-initialization block of `processBatchExport` (lines 59-70):
persists the full id list, `CURRENT_BATCH_INDEX = 0`, `TOTAL_PAGES`,
`PROCESSED_PAGES = 0`, the start time and an empty results list. -/
def initBatchRun (pageIds : List String) (now : String) (s : Store) : Store :=
  { s with batchInProgress := some "true", currentBatchIndex := some 0,
           totalPages := some pageIds.length, processedPages := some 0,
           batchPageIds := some (.good pageIds), batchStartedAt := some now,
           batchResults := some (.good []) }

/-- Deletion of the seven batch properties (completion, lines 206-212, and
`cancelBatchExport`, lines 484-490).  All other properties survive. -/
def clearBatchProps (s : Store) : Store :=
  { s with batchInProgress := none, currentBatchIndex := none,
           totalPages := none, processedPages := none, batchPageIds := none,
           batchStartedAt := none, batchResults := none }

/-- `JSON.parse` of the `BATCH_RESULTS` property guarded by
`batchResults ? JSON.parse(batchResults) : []` (line 46): an absent property
defaults to `[]`, but a present unparseable one throws. -/
def parseBatchResults :
    Option (Stored (List ExportResult)) → Except String (List ExportResult)
  | none => .ok []
  | some (.good rs) => .ok rs
  | some .corrupt => .error "SyntaxError: JSON.parse"

/-- Chunk `j` of a queue, already processed: the slice
`[BATCH_SIZE*j, BATCH_SIZE*(j+1))` mapped through the item processor. -/
def chunkOf (env : Env) (ids : List String) (j : Nat) : List ExportResult :=
  ((ids.drop (j * BATCH_SIZE)).take BATCH_SIZE).map (processBatchItem env)

/-- Lines 84-219 of `processBatchExport`: read the id list back from the
store (`JSON.parse(getProperty(BATCH_PAGE_IDS))` throws on an absent or
corrupt property once `.slice` is reached), process the current chunk,
persist cursor/count/results, record the chunk's rows, and either finish
(delete the batch properties and all triggers) or arm the next trigger.
The arguments are the local variables live at line 84. -/
def runChunk (env : Env) (w : World) (currentBatchIndex totalPages p0 : Nat)
    (batchResults0 : List ExportResult) : Except String World :=
  match w.store.batchPageIds with
  | none => .error "TypeError: Cannot read slice of null"
  | some .corrupt => .error "SyntaxError: JSON.parse"
  | some (.good pageIds) =>
      let startIndex := currentBatchIndex * BATCH_SIZE
      let endIndex := min (startIndex + BATCH_SIZE) totalPages
      let batchPageIds := (pageIds.drop startIndex).take (endIndex - startIndex)
      let results := batchPageIds.map (processBatchItem env)
      let processedPages := p0 + results.length
      let batchResults := batchResults0 ++ results
      let s1 := { w.store with
                    currentBatchIndex := some (currentBatchIndex + 1),
                    processedPages := some processedPages,
                    batchResults := some (.good batchResults) }
      let w1 := { w with store := s1, sheetRows := w.sheetRows ++ results }
      if totalPages ≤ endIndex then
        .ok { w1 with store := clearBatchProps s1, triggerArmed := false }
      else
        .ok { w1 with triggerArmed := true }

/-- `processBatchExport` (batchProcessor.js lines 29-220).  A settings
failure deletes every script property and returns.  Otherwise the persisted
state is read back; if no batch is in progress the run is initialized from a
fresh snapshot (an empty snapshot deletes every property and returns), and
in both cases the invocation continues into the chunk loop.  Note that the
local `processedPages` read at line 43 is not reset on the initialization
path.  An `Except.error` is an uncaught JS exception. -/
def processBatchExport (env : Env) (w : World) : Except String World :=
  if ¬ env.settingsOk then
    .ok { w with store := {} }
  else
    let batchInProgress := w.store.batchInProgress == some "true"
    let currentBatchIndex := w.store.currentBatchIndex.getD 0
    let totalPages := w.store.totalPages.getD 0
    let processedPages := w.store.processedPages.getD 0
    match parseBatchResults w.store.batchResults with
    | .error e => .error e
    | .ok batchResults =>
        if batchInProgress then
          runChunk env w currentBatchIndex totalPages processedPages batchResults
        else
          match env.pages with
          | [] => .ok { w with store := {} }
          | _ =>
              let pageIds := env.pages.map (·.id)
              let w1 := { w with store := initBatchRun pageIds env.now w.store }
              runChunk env w1 0 pageIds.length processedPages []

/-- `startBatchExport` (lines 336-357): returns untouched if the API key or
the settings are missing; otherwise deletes the in-progress flag, deletes
all triggers, and immediately invokes `processBatchExport`. -/
def startBatchExport (env : Env) (w : World) : Except String World :=
  if ¬ truthy w.store.notionApiKey then .ok w
  else if ¬ env.settingsOk then .ok w
  else
    processBatchExport env
      { w with store := { w.store with batchInProgress := none },
               triggerArmed := false }

/-- `cancelBatchExport` (lines 478-493): deletes all triggers and the seven
batch properties. -/
def cancelBatchExport (w : World) : World :=
  { w with store := clearBatchProps w.store, triggerArmed := false }

/-- `n` successive trigger firings of `processBatchExport`, each reading
only the persisted world left by the previous one. -/
def ticks (env : Env) (w : World) : Nat → Except String World
  | 0 => .ok w
  | n + 1 =>
      match processBatchExport env w with
      | .error e => .error e
      | .ok w1 => ticks env w1 n

/-- The change-detection test of `exportDifferentialNotionPages`
(lines 68-69): `!processedPages[pageId] ||
(lastEditedTime && processedPages[pageId].lastModified < lastEditedTime)`. -/
def isNewOrUpdated (state : ItemState) (page : Page) : Bool :=
  match stateLookup state page.id with
  | none => true
  | some entry =>
      match page.last_edited_time with
      | none => false
      | some t => if t = "" then false else jsLtStr entry.lastModified t

/-- The pre-resolved `Skipped` result built for a page that is not new or
updated (lines 74-81); it carries the previously recorded doc id. -/
def skippedResult (state : ItemState) (page : Page) : ExportResult :=
  { pageId := page.id, pageTitle := page.title, status := .Skipped,
    message := "前回のエクスポート以降更新がないためスキップされました",
    fileId := (stateLookup state page.id).map (·.docId) }

/-- The `pagesToProcess` list built by the partition loop (lines 63-83),
in snapshot order. -/
def pagesToProcess (state : ItemState) (pages : List Page) : List Page :=
  pages.filter (isNewOrUpdated state)

/-- The `skippedPages` list built by the partition loop (lines 63-83),
in snapshot order. -/
def skippedPages (state : ItemState) (pages : List Page) : List ExportResult :=
  (pages.filter (fun p => ! isNewOrUpdated state p)).map (skippedResult state)

/-- One observable event of a differential-export run: an item finished
processing, or one of the two property writes at lines 166-167. -/
inductive DiffEvent where
  | processed (pageId : String) (status : Status)
  | persistItemState (m : ItemState)
  | persistTimestamp (t : String)
deriving DecidableEq, Repr

/-- The per-item body of the differential processing loop (lines 97-160):
convert the page (reusing `processedPages[pageId].docId` when present); on
`{success:true}` update the in-memory map entry with
`lastEditedTime || currentTimestamp`; a `{success:false}` return or a thrown
exception yields a `Fail` result and leaves the map untouched. -/
def processDiffItem (env : Env) (state : ItemState) (now : String)
    (page : Page) : ExportResult × ItemState :=
  match env.save page.id with
  | .ok msg fid =>
      ({ pageId := page.id, pageTitle := page.title, status := .Success,
         message := msg, fileId := some fid },
       stateSet state page.id
         { lastModified := some (orElseStr page.last_edited_time now),
           docId := fid, title := page.title })
  | .err msg =>
      ({ pageId := page.id, pageTitle := page.title, status := .Fail,
         message := msg, fileId := none }, state)
  | .thrown m =>
      ({ pageId := page.id, pageTitle := page.title, status := .Fail,
         message := "エラー: " ++ m, fileId := none }, state)

/-- The differential processing loop over `pagesToProcess`, threading the
in-memory map and emitting one `processed` event per item.  No property
write happens inside the loop. -/
def diffLoop (env : Env) (now : String) :
    List Page → ItemState → List ExportResult × ItemState × List DiffEvent
  | [], state => ([], state, [])
  | p :: rest, state =>
      let step := processDiffItem env state now p
      let tail := diffLoop env now rest step.2
      (step.1 :: tail.1, tail.2.1, .processed p.id step.1.status :: tail.2.2)

/-- `exportDifferentialNotionPages` (differentialExporter.js lines 17-206).
Returns the final world, the returned results list (`none` on the early
returns), and the run's event trace.  A corrupt `PROCESSED_PAGES_INFO`
property is caught and replaced by the empty map (lines 40-46); the map and
the timestamp are persisted once, after the loop (lines 166-167). -/
def exportDifferentialNotionPages (env : Env) (w : World) :
    World × Option (List ExportResult) × List DiffEvent :=
  if ¬ env.settingsOk then (w, none, [])
  else if ¬ truthy w.store.notionApiKey then (w, none, [])
  else
    let state0 : ItemState :=
      match w.store.processedPagesInfo with
      | none => []
      | some (.good m) => m
      | some .corrupt => []
    match env.pages with
    | [] => (w, none, [])
    | _ =>
        let toProcess := pagesToProcess state0 env.pages
        let skipped := skippedPages state0 env.pages
        let run := diffLoop env env.now toProcess state0
        let results := run.1 ++ skipped
        let s1 := { w.store with
                      processedPagesInfo := some (.good run.2.1),
                      lastExportTimestamp := some env.now }
        ({ w with store := s1, sheetRows := w.sheetRows ++ results },
         some results,
         run.2.2 ++ [.persistItemState run.2.1, .persistTimestamp env.now])

/-- Modelled from the spec: a single uninterrupted run over a queue
processes every queued item in order in one pass (the comparand of the
resume-correctness refinement). -/
def uninterruptedRun (env : Env) (pageIds : List String) : List ExportResult :=
  pageIds.map (processBatchItem env)

/-- Modelled from the spec: the claimed Change-Detector condition — an item
is to process iff it is absent from the item state, or its stored timestamp
is missing, or its `lastModifiedAt` is strictly newer than the stored one. -/
def claimToProcess (state : ItemState) (page : Page) : Bool :=
  match stateLookup state page.id with
  | none => true
  | some entry =>
      match entry.lastModified, page.last_edited_time with
      | none, _ => true
      | some stored, some t => strLtB stored.data t.data
      | some _, none => false

/-- A page-fetch environment that always finds the page. -/
def fetchOkay (id : String) : FetchPage := .found ("T:" ++ id)

/-- A database of `n` pages `q0, q1, …` all last edited at `"100"`. -/
def samplePages (n : Nat) : List Page :=
  (List.range n).map (fun i => ⟨"q" ++ toString i, some "100", "T" ++ toString i⟩)

/-- An idle world: empty property store, no trigger, empty results sheet. -/
def idleWorld : World := ⟨{}, false, []⟩

/-- Environment for the stray-tick example: settings load, six pages, every
conversion succeeds. -/
def c1Env : Env where
  settingsOk := true
  pages := samplePages 6
  fetchPage := fetchOkay
  save := fun _ => SaveOutcome.ok "saved" "doc"
  now := "2026-01-01T00:00:00Z"

/-- Environment for the start example: six pages of which `q0` carries the
same timestamp as its stored item-state entry. -/
def c2Env : Env := c1Env

/-- A store whose item state already records `q0` at timestamp `"100"`. -/
def c2World : World :=
  ⟨{ processedPagesInfo := some (.good [("q0", ⟨some "100", "docQ0", "T0"⟩)]) },
   false, []⟩

/-- An item state whose entry for `A` has no stored timestamp. -/
def c3State : ItemState := [("A", ⟨none, "docA", "A"⟩)]

/-- A snapshot page `A` carrying timestamp `"100"`. -/
def c3Page : Page := ⟨"A", some "100", "A"⟩

/-- The spec's diffing example: item state `A ↦ t=100`. -/
def exState : ItemState := [("A", ⟨some "100", "docA", "A"⟩)]

/-- The spec's diffing example snapshot `[A: t=100, B: t=None, C: t=150]`. -/
def exPages : List Page :=
  [⟨"A", some "100", "A"⟩, ⟨"B", none, "B"⟩, ⟨"C", some "150", "C"⟩]

/-- Environment for the resume example: seven pages, two chunks. -/
def c4Env : Env where
  settingsOk := true
  pages := samplePages 7
  fetchPage := fetchOkay
  save := fun id => SaveOutcome.ok "saved" ("f" ++ id)
  now := "2026-01-01T00:00:00Z"

/-- Environment for the deferred-persistence example: two new pages whose
conversions both succeed. -/
def c5Env : Env where
  settingsOk := true
  pages := [⟨"A", some "100", "TA"⟩, ⟨"B", some "100", "TB"⟩]
  fetchPage := fetchOkay
  save := fun id => SaveOutcome.ok "s" ("f" ++ id)
  now := "2026-02-02T00:00:00Z"

/-- A world holding an API key and no differential state. -/
def c5World : World := ⟨{ notionApiKey := some "k" }, false, []⟩

/-- A world holding an API key and an empty (but present) item-state map. -/
def c5GoodWorld : World :=
  ⟨{ notionApiKey := some "k", processedPagesInfo := some (.good []) }, false, []⟩

/-- Environment for partial-failure isolation: ten pages, the fifth throws
during conversion, the rest succeed. -/
def c6Env : Env where
  settingsOk := true
  pages := (List.range 10).map
    (fun i => ⟨"p" ++ toString i, some "100", "P" ++ toString i⟩)
  fetchPage := fetchOkay
  save := fun id =>
    if id = "p4" then SaveOutcome.thrown "boom"
    else SaveOutcome.ok "saved" ("f" ++ id)
  now := "2026-01-01T00:00:00Z"

/-- A store holding the API key and a non-empty change-detection baseline,
with no run in progress. -/
def c7World : World :=
  ⟨{ notionApiKey := some "secret-key",
     processedPagesInfo := some (.good [("A", ⟨some "100", "docA", "TA"⟩)]) },
   false, []⟩

/-- Environment whose settings fail to load. -/
def c7EnvNoSettings : Env where
  settingsOk := false
  pages := samplePages 3
  fetchPage := fetchOkay
  save := fun _ => SaveOutcome.ok "saved" "doc"
  now := "2026-01-01T00:00:00Z"

/-- Environment whose database listing returns no pages. -/
def c7EnvNoPages : Env where
  settingsOk := true
  pages := []
  fetchPage := fetchOkay
  save := fun _ => SaveOutcome.ok "saved" "doc"
  now := "2026-01-01T00:00:00Z"

/-- A mid-run batch store whose accumulated-results property is corrupt. -/
def c8World : World :=
  ⟨{ batchInProgress := some "true", currentBatchIndex := some 0,
     totalPages := some 1, processedPages := some 0,
     batchPageIds := some (.good ["A"]), batchStartedAt := some "T0",
     batchResults := some .corrupt }, true, []⟩

/-- A mid-run batch store whose item-queue property is corrupt. -/
def c8QueueWorld : World :=
  ⟨{ batchInProgress := some "true", currentBatchIndex := some 0,
     totalPages := some 1, processedPages := some 0,
     batchPageIds := some .corrupt, batchStartedAt := some "T0",
     batchResults := some (.good []) }, true, []⟩

/-- A world whose differential item-state property is corrupt. -/
def c8DiffWorld : World :=
  ⟨{ notionApiKey := some "k", processedPagesInfo := some .corrupt },
   false, []⟩

/-- Environment for the corruption examples: one page, conversion succeeds. -/
def c8Env : Env where
  settingsOk := true
  pages := [⟨"A", some "100", "TA"⟩]
  fetchPage := fetchOkay
  save := fun _ => SaveOutcome.ok "saved" "fA"
  now := "2026-01-01T00:00:00Z"

/-- Environment for the idempotence example: one page whose conversion
always fails. -/
def c9Env : Env where
  settingsOk := true
  pages := [⟨"A", some "100", "TA"⟩]
  fetchPage := fetchOkay
  save := fun _ => SaveOutcome.err "convert failed"
  now := "2026-03-03T00:00:00Z"

/-- The world after the first failing run of the idempotence example. -/
def c9World1 : World := (exportDifferentialNotionPages c9Env c5World).1

/-- Environment for the restart example: a fresh snapshot of six new pages,
all converting successfully. -/
def c10Env : Env where
  settingsOk := true
  pages := (List.range 6).map
    (fun i => ⟨"n" ++ toString i, some "200", "N" ++ toString i⟩)
  fetchPage := fetchOkay
  save := fun _ => SaveOutcome.ok "saved" "doc"
  now := "2026-04-04T00:00:00Z"

/-- A world captured mid-run: eight queued pages of an older snapshot,
cursor 1, seven pages already counted, a trigger armed. -/
def c10World : World :=
  ⟨{ notionApiKey := some "k", batchInProgress := some "true",
     currentBatchIndex := some 1, totalPages := some 8,
     processedPages := some 7,
     batchPageIds := some (.good ["o1", "o2", "o3", "o4", "o5", "o6", "o7", "o8"]),
     batchStartedAt := some "T0", batchResults := some (.good []) },
   true, []⟩

/-- The same world with the batch properties cleared, for comparison with a
fresh start. -/
def c10CleanWorld : World :=
  ⟨{ notionApiKey := some "k" }, false, []⟩

/-- The store persisted after chunk `j - 1` of a clean run over queue `ids`
started at `t0`: cursor `j`, `min (j * BATCH_SIZE) |ids|` pages counted, and
the results of the first `j * BATCH_SIZE` queue items accumulated. -/
def midStore (env : Env) (ids : List String) (t0 : String) (j : Nat)
    (base : Store) : Store :=
  { base with
      batchInProgress := some "true",
      currentBatchIndex := some j,
      totalPages := some ids.length,
      processedPages := some (min (j * BATCH_SIZE) ids.length),
      batchPageIds := some (.good ids),
      batchStartedAt := some t0,
      batchResults :=
        some (.good ((ids.take (j * BATCH_SIZE)).map (processBatchItem env))) }

/-- The store persisted by an initializing invocation after its first chunk,
when the stale local page counter started at `p0` (it is not reset on the
initialization path). -/
def afterStartChunk (env : Env) (ids : List String) (t0 : String) (p0 : Nat)
    (base : Store) : Store :=
  { base with
      batchInProgress := some "true",
      currentBatchIndex := some 1,
      totalPages := some ids.length,
      processedPages := some (p0 + min BATCH_SIZE ids.length),
      batchPageIds := some (.good ids),
      batchStartedAt := some t0,
      batchResults := some (.good (chunkOf env ids 0)) }

/-- The processed results of chunks `j, …, j + k - 1` of a queue. -/
def seg (env : Env) (ids : List String) (j k : Nat) : List ExportResult :=
  ((ids.drop (j * BATCH_SIZE)).take (k * BATCH_SIZE)).map (processBatchItem env)

theorem strLtB_irrefl (l : List Char) : strLtB l l = false := by
  induction l with
  | nil => rfl
  | cons a as ih => simp [strLtB, ih]

theorem stateLookup_stateSet_self (m : ItemState) (k : String) (v : ItemEntry) :
    stateLookup (stateSet m k v) k = some v := by
  induction m with
  | nil => simp [stateSet, stateLookup]
  | cons hd tl ih =>
      by_cases h : hd.1 = k
      · simp [stateSet, stateLookup, h]
      · simp [stateSet, stateLookup, h, ih]

theorem stateLookup_stateSet_ne (m : ItemState) (k k' : String) (v : ItemEntry)
    (h : k' ≠ k) : stateLookup (stateSet m k v) k' = stateLookup m k' := by
  induction m with
  | nil => simp [stateSet, stateLookup, Ne.symm h]
  | cons hd tl ih =>
      obtain ⟨a, b⟩ := hd
      by_cases hk : a = k
      · subst hk
        simp [stateSet, stateLookup, Ne.symm h]
      · by_cases hk' : a = k' <;> simp [stateSet, stateLookup, hk, hk', ih, h]

/-- The differential loop never touches map entries whose id is not among
the processed pages. -/
theorem diffLoop_lookup_notin (env : Env) (now : String) (ps : List Page)
    (st : ItemState) (id : String) (h : ∀ p ∈ ps, p.id ≠ id) :
    stateLookup (diffLoop env now ps st).2.1 id = stateLookup st id := by
  induction ps generalizing st with
  | nil => rfl
  | cons p rest ih =>
      have hp : p.id ≠ id := h p (by simp)
      have hrest : ∀ q ∈ rest, q.id ≠ id := fun q hq => h q (by simp [hq])
      show stateLookup (diffLoop env now rest (processDiffItem env st now p).2).2.1 id = _
      rw [ih _ hrest]
      unfold processDiffItem
      cases hs : env.save p.id with
      | ok msg fid => exact stateLookup_stateSet_ne _ _ _ _ fun hk => hp hk.symm
      | err msg => rfl
      | thrown msg => rfl

/-- After the differential loop, a processed page whose conversion succeeded
has exactly the freshly written map entry (ids assumed unique, as in a JS
object snapshot keyed by page id). -/
theorem diffLoop_lookup_ok (env : Env) (now : String) (ps : List Page)
    (st : ItemState) (p : Page) (msg fid : String)
    (hnd : (ps.map (·.id)).Nodup) (hp : p ∈ ps)
    (hs : env.save p.id = .ok msg fid) :
    stateLookup (diffLoop env now ps st).2.1 p.id =
      some ⟨some (orElseStr p.last_edited_time now), fid, p.title⟩ := by
  induction ps generalizing st with
  | nil => cases hp
  | cons q rest ih =>
      simp only [List.map_cons, List.nodup_cons] at hnd
      rcases List.mem_cons.mp hp with hq | hq
      · subst hq
        have hrest : ∀ r ∈ rest, r.id ≠ p.id := by
          intro r hr hEq
          exact hnd.1 (by rw [← hEq]; exact List.mem_map_of_mem (·.id) hr)
        show stateLookup (diffLoop env now rest (processDiffItem env st now p).2).2.1 p.id = _
        rw [diffLoop_lookup_notin env now rest _ p.id hrest]
        unfold processDiffItem
        rw [hs]
        exact stateLookup_stateSet_self _ _ _
      · exact ih _ hnd.2 hq

/-- After the differential loop, a processed page whose conversion did not
succeed keeps whatever map entry it had before the run. -/
theorem diffLoop_lookup_notok (env : Env) (now : String) (ps : List Page)
    (st : ItemState) (p : Page)
    (hnd : (ps.map (·.id)).Nodup) (hp : p ∈ ps)
    (hs : ∀ msg fid, env.save p.id ≠ .ok msg fid) :
    stateLookup (diffLoop env now ps st).2.1 p.id = stateLookup st p.id := by
  induction ps generalizing st with
  | nil => cases hp
  | cons q rest ih =>
      simp only [List.map_cons, List.nodup_cons] at hnd
      rcases List.mem_cons.mp hp with hq | hq
      · subst hq
        have hrest : ∀ r ∈ rest, r.id ≠ p.id := by
          intro r hr hEq
          exact hnd.1 (by rw [← hEq]; exact List.mem_map_of_mem (·.id) hr)
        show stateLookup (diffLoop env now rest (processDiffItem env st now p).2).2.1 p.id = _
        rw [diffLoop_lookup_notin env now rest _ p.id hrest]
        unfold processDiffItem
        cases hsave : env.save p.id with
        | ok msg fid => exact absurd hsave (hs msg fid)
        | err msg => rfl
        | thrown msg => rfl
      · show stateLookup (diffLoop env now rest (processDiffItem env st now q).2).2.1 p.id = _
        rw [ih _ hnd.2 hq]
        unfold processDiffItem
        have hqp : p.id ≠ q.id := by
          intro hEq
          exact hnd.1 (by rw [← hEq]; exact List.mem_map_of_mem (·.id) hq)
        cases hsave : env.save q.id with
        | ok msg fid => exact stateLookup_stateSet_ne _ _ _ _ hqp
        | err msg => rfl
        | thrown msg => rfl

/-- Every event the differential loop emits is a `processed` event: no
property write happens inside the loop. -/
theorem diffLoop_events (env : Env) (now : String) (ps : List Page)
    (st : ItemState) :
    ∀ e ∈ (diffLoop env now ps st).2.2, ∃ id s, e = .processed id s := by
  induction ps generalizing st with
  | nil => intro e he; cases he
  | cons p rest ih =>
      intro e he
      rcases List.mem_cons.mp he with h | h
      · exact ⟨p.id, _, h⟩
      · exact ih _ e h

theorem chunkOf_length (env : Env) (ids : List String) (j : Nat) :
    (chunkOf env ids j).length = min BATCH_SIZE (ids.length - j * BATCH_SIZE) := by
  simp [chunkOf]

/-- One invocation of the chunk phase, for a parseable queue: it processes
the slice `[j * BATCH_SIZE, min ((j+1) * BATCH_SIZE) |ids|)`, appends it to
the sheet and the accumulated results, bumps the cursor and the counter, and
finishes (clearing the batch properties and the trigger) exactly when the
slice reaches the end of the queue. -/
theorem runChunk_spec (env : Env) (w : World) (j p0 : Nat)
    (rs0 : List ExportResult) (ids : List String)
    (hq : w.store.batchPageIds = some (.good ids)) :
    runChunk env w j ids.length p0 rs0 =
      if ids.length ≤ (j + 1) * BATCH_SIZE then
        .ok ⟨clearBatchProps w.store, false, w.sheetRows ++ chunkOf env ids j⟩
      else
        .ok ⟨{ w.store with
                 currentBatchIndex := some (j + 1),
                 processedPages := some (p0 + (chunkOf env ids j).length),
                 batchResults := some (.good (rs0 ++ chunkOf env ids j)) },
             true, w.sheetRows ++ chunkOf env ids j⟩ := by
  have hslice : (ids.drop (j * BATCH_SIZE)).take
      (min (j * BATCH_SIZE + BATCH_SIZE) ids.length - j * BATCH_SIZE) =
      (ids.drop (j * BATCH_SIZE)).take BATCH_SIZE := by
    refine List.take_eq_take.mpr ?_
    rw [List.length_drop]
    omega
  by_cases hend : ids.length ≤ (j + 1) * BATCH_SIZE
  · rw [if_pos hend]
    simp only [runChunk, hq, hslice, chunkOf]
    rw [if_pos (by simp only [BATCH_SIZE] at hend ⊢; omega)]
    rfl
  · rw [if_neg hend]
    simp only [runChunk, hq, hslice, chunkOf]
    rw [if_neg (by simp only [BATCH_SIZE] at hend ⊢; omega)]

/-- A trigger firing against a mid-run store continues at the persisted
cursor: it processes chunk `j`, and either completes or persists the
`j + 1` mid-run store and re-arms the trigger. -/
theorem tick_mid (env : Env) (ids : List String) (t0 : String) (j : Nat)
    (base : Store) (trig : Bool) (rows : List ExportResult)
    (hs : env.settingsOk = true) :
    processBatchExport env ⟨midStore env ids t0 j base, trig, rows⟩ =
      if ids.length ≤ (j + 1) * BATCH_SIZE then
        .ok ⟨clearBatchProps base, false, rows ++ chunkOf env ids j⟩
      else
        .ok ⟨midStore env ids t0 (j + 1) base, true, rows ++ chunkOf env ids j⟩ := by
  have hq : (midStore env ids t0 j base).batchPageIds = some (.good ids) := rfl
  have h1 : processBatchExport env ⟨midStore env ids t0 j base, trig, rows⟩ =
      runChunk env ⟨midStore env ids t0 j base, trig, rows⟩ j ids.length
        (min (j * BATCH_SIZE) ids.length)
        ((ids.take (j * BATCH_SIZE)).map (processBatchItem env)) := by
    simp [processBatchExport, hs, midStore, parseBatchResults]
  rw [h1, runChunk_spec env _ j _ _ ids hq]
  by_cases hend : ids.length ≤ (j + 1) * BATCH_SIZE
  · rw [if_pos hend, if_pos hend]
    rfl
  · rw [if_neg hend, if_neg hend]
    have hcount : min (j * BATCH_SIZE) ids.length + (chunkOf env ids j).length =
        min ((j + 1) * BATCH_SIZE) ids.length := by
      rw [chunkOf_length]
      simp only [BATCH_SIZE]
      omega
    have hacc : (ids.take (j * BATCH_SIZE)).map (processBatchItem env) ++
        chunkOf env ids j =
        (ids.take ((j + 1) * BATCH_SIZE)).map (processBatchItem env) := by
      have : (j + 1) * BATCH_SIZE = j * BATCH_SIZE + BATCH_SIZE := by ring
      rw [this, List.take_add, List.map_append, chunkOf]
    simp only [midStore, hcount, hacc]

/-- An invocation that observes no run in progress takes the
initialization path: it snapshots the database, persists a fresh RunState
over the full id list, and processes chunk 0 in the same invocation.  The
stale local page counter `p0` carries over from the store it read. -/
theorem tick_start (env : Env) (w : World) (hs : env.settingsOk = true)
    (hip : (w.store.batchInProgress == some "true") = false)
    (hbr : w.store.batchResults ≠ some .corrupt)
    (hp : env.pages ≠ []) :
    processBatchExport env w =
      if env.pages.length ≤ BATCH_SIZE then
        .ok ⟨clearBatchProps w.store, false,
             w.sheetRows ++ chunkOf env (env.pages.map (·.id)) 0⟩
      else
        .ok ⟨afterStartChunk env (env.pages.map (·.id)) env.now
               (w.store.processedPages.getD 0) w.store, true,
             w.sheetRows ++ chunkOf env (env.pages.map (·.id)) 0⟩ := by
  have hpr : ∃ rs, parseBatchResults w.store.batchResults = .ok rs := by
    cases hb : w.store.batchResults with
    | none => exact ⟨[], rfl⟩
    | some v =>
        cases v with
        | good rs => exact ⟨rs, rfl⟩
        | corrupt => exact absurd hb hbr
  obtain ⟨rs, hrs⟩ := hpr
  cases hpg : env.pages with
  | nil => exact absurd hpg hp
  | cons p rest =>
      have h1 : processBatchExport env w =
          runChunk env { w with store := initBatchRun ((p :: rest).map (·.id)) env.now w.store }
            0 ((p :: rest).map (·.id)).length (w.store.processedPages.getD 0) [] := by
        simp [processBatchExport, hs, hip, hrs, hpg]
      have hq : (initBatchRun ((p :: rest).map (·.id)) env.now w.store).batchPageIds =
          some (.good ((p :: rest).map (·.id))) := rfl
      rw [h1, runChunk_spec env _ 0 _ _ _ hq]
      have hc1 : (((p :: rest).map (·.id)).length ≤ (0 + 1) * BATCH_SIZE) =
          ((p :: rest).length ≤ BATCH_SIZE) := by
        simp only [List.length_map, Nat.zero_add, Nat.one_mul]
      by_cases hend : (p :: rest).length ≤ BATCH_SIZE
      · rw [if_pos (by rw [hc1]; exact hend), if_pos hend]
        rfl
      · rw [if_neg (by rw [hc1]; exact hend), if_neg hend]
        have hcl : (chunkOf env ((p :: rest).map (·.id)) 0).length =
            min BATCH_SIZE ((p :: rest).map (·.id)).length := by
          rw [chunkOf_length, Nat.zero_mul, Nat.sub_zero]
        rw [hcl]
        rfl

/-- `afterStartChunk` with a clean counter is exactly the cursor-1 mid-run
store. -/
theorem afterStartChunk_zero (env : Env) (ids : List String) (t0 : String)
    (base : Store) :
    afterStartChunk env ids t0 0 base = midStore env ids t0 1 base := by
  simp only [afterStartChunk, midStore, chunkOf, Nat.zero_add, Nat.one_mul,
    Nat.zero_mul, List.drop_zero]

/-- Gluing segments: chunk `j` followed by chunks `j+1, …, j+k` is the
segment of chunks `j, …, j+k`. -/
theorem chunk_seg_glue (env : Env) (ids : List String) (j k : Nat) :
    chunkOf env ids j ++ seg env ids (j + 1) k = seg env ids j (k + 1) := by
  simp only [chunkOf, seg, ← List.map_append]
  congr 1
  have hd : ids.drop ((j + 1) * BATCH_SIZE) =
      (ids.drop (j * BATCH_SIZE)).drop BATCH_SIZE := by
    rw [List.drop_drop]
    congr 1
    ring
  rw [hd]
  have ht : (k + 1) * BATCH_SIZE = BATCH_SIZE + k * BATCH_SIZE := by ring
  rw [ht, List.take_add]

/-- Gluing segments on the right: chunks `j, …, j+k-1` followed by chunk
`j+k` form the segment of chunks `j, …, j+k`. -/
theorem seg_snoc (env : Env) (ids : List String) (j k : Nat) :
    seg env ids j k ++ chunkOf env ids (j + k) = seg env ids j (k + 1) := by
  simp only [chunkOf, seg, ← List.map_append]
  congr 1
  have hd : ids.drop ((j + k) * BATCH_SIZE) =
      (ids.drop (j * BATCH_SIZE)).drop (k * BATCH_SIZE) := by
    rw [List.drop_drop]
    congr 1
    ring
  rw [hd]
  have ht : (k + 1) * BATCH_SIZE = k * BATCH_SIZE + BATCH_SIZE := by ring
  rw [ht, List.take_add]

theorem ticks_succ (env : Env) (w : World) (n : Nat) :
    ticks env w (n + 1) =
      match processBatchExport env w with
      | Except.error e => Except.error e
      | Except.ok w1 => ticks env w1 n := rfl

/-- Iterating the continuation from a mid-run store stays on the mid-run
invariant while chunks remain. -/
theorem ticks_mid (env : Env) (ids : List String) (t0 : String)
    (base : Store) (rows : List ExportResult) (k : Nat)
    (hs : env.settingsOk = true) :
    ∀ j, (j + k) * BATCH_SIZE < ids.length →
      ticks env ⟨midStore env ids t0 j base, true, rows ++ seg env ids 0 j⟩ k =
        .ok ⟨midStore env ids t0 (j + k) base, true,
             rows ++ seg env ids 0 (j + k)⟩ := by
  induction k with
  | zero => intro j _; rfl
  | succ k ih =>
      intro j hjk
      have hcont : ¬ ids.length ≤ (j + 1) * BATCH_SIZE := by
        simp only [BATCH_SIZE] at hjk ⊢
        omega
      have hseg : (rows ++ seg env ids 0 j) ++ chunkOf env ids j =
          rows ++ seg env ids 0 (j + 1) := by
        rw [List.append_assoc]
        congr 1
        have h0 : seg env ids 0 j ++ chunkOf env ids j =
            seg env ids 0 j ++ chunkOf env ids (0 + j) := by rw [Nat.zero_add]
        rw [h0, seg_snoc env ids 0 j]
      rw [ticks_succ, tick_mid env ids t0 j base true _ hs, if_neg hcont]
      show ticks env ⟨midStore env ids t0 (j + 1) base, true,
          (rows ++ seg env ids 0 j) ++ chunkOf env ids j⟩ k = _
      have heq : j + 1 + k = j + (k + 1) := by omega
      rw [hseg, ih (j + 1) (by simp only [BATCH_SIZE] at hjk ⊢; omega), heq]

theorem chunkOf_zero (env : Env) (ids : List String) :
    chunkOf env ids 0 = seg env ids 0 1 := by
  simp [chunkOf, seg, Nat.one_mul, Nat.zero_mul]

theorem seg_zero_take (env : Env) (ids : List String) (k : Nat) :
    seg env ids 0 k = (ids.take (k * BATCH_SIZE)).map (processBatchItem env) := by
  simp [seg, Nat.zero_mul]

/-- From any mid-run store with work remaining, some number of further
trigger firings completes the run: the batch properties are cleared, the
trigger is disarmed, and the rest of the queue has been processed in
order. -/
theorem ticks_finish_aux (env : Env) (ids : List String) (t0 : String)
    (base : Store) (hs : env.settingsOk = true) (c : Nat) :
    ∀ j (rows : List ExportResult), j * BATCH_SIZE < ids.length →
      ids.length ≤ j * BATCH_SIZE + c * BATCH_SIZE →
      ∃ m, ticks env ⟨midStore env ids t0 j base, true, rows⟩ m =
        .ok ⟨clearBatchProps base, false,
             rows ++ (ids.drop (j * BATCH_SIZE)).map (processBatchItem env)⟩ := by
  induction c with
  | zero =>
      intro j rows hj hc
      exfalso
      simp only [BATCH_SIZE] at hj hc
      omega
  | succ c ih =>
      intro j rows hj hc
      by_cases hend : ids.length ≤ (j + 1) * BATCH_SIZE
      · refine ⟨1, ?_⟩
        rw [ticks_succ, tick_mid env ids t0 j base true rows hs, if_pos hend]
        have hch : chunkOf env ids j =
            (ids.drop (j * BATCH_SIZE)).map (processBatchItem env) := by
          unfold chunkOf
          congr 1
          refine List.take_of_length_le ?_
          rw [List.length_drop]
          simp only [BATCH_SIZE] at hend ⊢
          omega
        show (Except.ok (⟨clearBatchProps base, false,
            rows ++ chunkOf env ids j⟩ : World) : Except String World) = _
        rw [hch]
      · obtain ⟨m, hm⟩ := ih (j + 1) (rows ++ chunkOf env ids j)
          (by simp only [BATCH_SIZE] at hend ⊢; omega)
          (by simp only [BATCH_SIZE] at hc ⊢; omega)
        refine ⟨m + 1, ?_⟩
        rw [ticks_succ, tick_mid env ids t0 j base true rows hs, if_neg hend]
        show ticks env ⟨midStore env ids t0 (j + 1) base, true,
            rows ++ chunkOf env ids j⟩ m = _
        rw [hm]
        have hglue : (rows ++ chunkOf env ids j) ++
            (ids.drop ((j + 1) * BATCH_SIZE)).map (processBatchItem env) =
            rows ++ (ids.drop (j * BATCH_SIZE)).map (processBatchItem env) := by
          rw [List.append_assoc]
          congr 1
          rw [chunkOf]
          have hd : ids.drop ((j + 1) * BATCH_SIZE) =
              (ids.drop (j * BATCH_SIZE)).drop BATCH_SIZE := by
            rw [List.drop_drop]
            congr 1
            ring
          rw [hd, ← List.map_append, List.take_append_drop]
        rw [hglue]

/-- A run driven from a clean idle store to completion processes the whole
snapshot, in order, and ends with the batch properties cleared and the
trigger disarmed — for every environment, whatever the per-item outcomes. -/
theorem run_from_idle (env : Env) (w : World) (hs : env.settingsOk = true)
    (hip : (w.store.batchInProgress == some "true") = false)
    (hbr : w.store.batchResults = none)
    (hpp : w.store.processedPages = none)
    (hp : env.pages ≠ []) :
    ∃ m, ticks env w m =
      .ok ⟨clearBatchProps w.store, false,
           w.sheetRows ++ (env.pages.map (·.id)).map (processBatchItem env)⟩ := by
  have hbr' : w.store.batchResults ≠ some .corrupt := by
    rw [hbr]
    exact fun h => by cases h
  have hstart := tick_start env w hs hip hbr' hp
  by_cases hend : env.pages.length ≤ BATCH_SIZE
  · refine ⟨1, ?_⟩
    rw [ticks_succ, hstart, if_pos hend]
    have hch : chunkOf env (env.pages.map (·.id)) 0 =
        (env.pages.map (·.id)).map (processBatchItem env) := by
      unfold chunkOf
      congr 1
      rw [Nat.zero_mul, List.drop_zero]
      refine List.take_of_length_le ?_
      rw [List.length_map]
      exact hend
    rw [hch]
    rfl
  · obtain ⟨m, hm⟩ := ticks_finish_aux env (env.pages.map (·.id)) env.now
      w.store hs env.pages.length 1
      (w.sheetRows ++ chunkOf env (env.pages.map (·.id)) 0)
      (by rw [List.length_map]; simp only [BATCH_SIZE] at hend ⊢; omega)
      (by rw [List.length_map]; simp only [BATCH_SIZE] at hend ⊢; nlinarith)
    refine ⟨m + 1, ?_⟩
    rw [ticks_succ, hstart, if_neg hend, hpp]
    show ticks env ⟨afterStartChunk env (env.pages.map (·.id)) env.now
        ((none : Option Nat).getD 0) w.store, true,
        w.sheetRows ++ chunkOf env (env.pages.map (·.id)) 0⟩ m = _
    have hz : ((none : Option Nat).getD 0) = 0 := rfl
    rw [hz, afterStartChunk_zero, hm]
    have hrows : (w.sheetRows ++ chunkOf env (env.pages.map (·.id)) 0) ++
        ((env.pages.map (·.id)).drop (1 * BATCH_SIZE)).map (processBatchItem env) =
        w.sheetRows ++ (env.pages.map (·.id)).map (processBatchItem env) := by
      rw [List.append_assoc]
      congr 1
      rw [chunkOf, Nat.zero_mul, List.drop_zero, Nat.one_mul,
        ← List.map_append, List.take_append_drop]
    rw [hrows]

/-- Claim C1 (counterexample): a `tick()` firing while no run is active is
not a no-op — against an empty store, six pages and loadable settings it
starts a run (`BATCH_IN_PROGRESS` becomes `'true'`), changes the persisted
state, and processes five pages onto the results sheet. -/
theorem c1_counterexample :
    (processBatchExport c1Env idleWorld).map
        (fun w => w.store.batchInProgress) = .ok (some "true") ∧
    (processBatchExport c1Env idleWorld).map
        (fun w => w.sheetRows.length) = .ok 5 ∧
    processBatchExport c1Env idleWorld ≠ .ok idleWorld := by decide

/-- Claim C1 (amended): a `tick()` observed with no run in progress does not
error (given a parseable results property), but it is the start path rather
than a no-op: it captures a fresh snapshot and processes its first chunk,
appending those results to the results sheet. -/
theorem c1_tick_in_idle_starts_run (env : Env) (w : World)
    (hs : env.settingsOk = true)
    (hip : (w.store.batchInProgress == some "true") = false)
    (hbr : w.store.batchResults ≠ some .corrupt)
    (hp : env.pages ≠ []) :
    ∃ w', processBatchExport env w = .ok w' ∧
      w'.sheetRows = w.sheetRows ++ chunkOf env (env.pages.map (·.id)) 0 ∧
      chunkOf env (env.pages.map (·.id)) 0 ≠ [] := by
  have hne : chunkOf env (env.pages.map (·.id)) 0 ≠ [] := by
    unfold chunkOf
    rw [Nat.zero_mul, List.drop_zero]
    intro hcon
    rw [List.map_eq_nil_iff] at hcon
    rcases List.take_eq_nil_iff.mp hcon with h | h
    · exact absurd h (by simp [BATCH_SIZE])
    · exact absurd (List.map_eq_nil_iff.mp h) hp
  rw [tick_start env w hs hip hbr hp]
  by_cases hend : env.pages.length ≤ BATCH_SIZE
  · rw [if_pos hend]
    exact ⟨_, rfl, rfl, hne⟩
  · rw [if_neg hend]
    exact ⟨_, rfl, rfl, hne⟩

/-- Claim C1 witness: the amended behaviour at the concrete six-page
environment over an empty store. -/
theorem c1_witness :
    ∃ w', processBatchExport c1Env idleWorld = .ok w' ∧
      w'.sheetRows = idleWorld.sheetRows ++
        chunkOf c1Env (c1Env.pages.map (·.id)) 0 ∧
      chunkOf c1Env (c1Env.pages.map (·.id)) 0 ≠ [] :=
  c1_tick_in_idle_starts_run c1Env idleWorld (by decide) (by decide)
    (by decide) (by decide)

/-- Claim C2 (counterexample): starting a run over a snapshot whose first
page `q0` carries exactly the stored item-state timestamp persists the full
raw id list — `q0` included, not pre-resolved — and processes `q0` through
the item processor, yielding `Success`, where the claim predicts a
pre-resolved `Skipped` entry. -/
theorem c2_counterexample :
    (processBatchExport c2Env c2World).map (fun w => w.store.batchPageIds) =
      .ok (some (.good ["q0", "q1", "q2", "q3", "q4", "q5"])) ∧
    (processBatchExport c2Env c2World).map
        (fun w => w.sheetRows.map (fun r => (r.pageId, r.status))) =
      .ok [("q0", Status.Success), ("q1", Status.Success),
           ("q2", Status.Success), ("q3", Status.Success),
           ("q4", Status.Success)] ∧
    Status.Success ≠ Status.Skipped := by decide

/-- Claim C2 (amended): a start from Idle persists `itemQueue` = the ids of
every snapshot page in snapshot order — no Change Detector runs and no skip
entries are pre-resolved — with `cursor = 0`, `totalCount = |queue|` and
`processedCount = 0` in the initialization write; every WorkItem of the
snapshot appears in the persisted queue. -/
theorem c2_start_persists_full_queue (env : Env) (w : World)
    (hs : env.settingsOk = true)
    (hip : (w.store.batchInProgress == some "true") = false)
    (hbr : w.store.batchResults ≠ some .corrupt)
    (h5 : BATCH_SIZE < env.pages.length) :
    (initBatchRun (env.pages.map (·.id)) env.now w.store).currentBatchIndex =
      some 0 ∧
    (initBatchRun (env.pages.map (·.id)) env.now w.store).processedPages =
      some 0 ∧
    (initBatchRun (env.pages.map (·.id)) env.now w.store).totalPages =
      some (env.pages.map (·.id)).length ∧
    (initBatchRun (env.pages.map (·.id)) env.now w.store).batchPageIds =
      some (.good (env.pages.map (·.id))) ∧
    (∀ p ∈ env.pages, p.id ∈ env.pages.map (·.id)) ∧
    ∃ w', processBatchExport env w = .ok w' ∧
      w'.store.batchPageIds = some (.good (env.pages.map (·.id))) := by
  refine ⟨rfl, rfl, rfl, rfl, fun p hp => List.mem_map_of_mem (·.id) hp, ?_⟩
  have hp : env.pages ≠ [] := by
    intro h
    rw [h] at h5
    simp [BATCH_SIZE] at h5
  rw [tick_start env w hs hip hbr hp, if_neg (by omega)]
  exact ⟨_, rfl, rfl⟩

/-- Claim C2 witness: the amended start behaviour at the concrete six-page
snapshot with a one-entry item state. -/
theorem c2_witness :
    (initBatchRun (c2Env.pages.map (·.id)) c2Env.now c2World.store).currentBatchIndex =
      some 0 ∧
    (initBatchRun (c2Env.pages.map (·.id)) c2Env.now c2World.store).processedPages =
      some 0 ∧
    (initBatchRun (c2Env.pages.map (·.id)) c2Env.now c2World.store).totalPages =
      some (c2Env.pages.map (·.id)).length ∧
    (initBatchRun (c2Env.pages.map (·.id)) c2Env.now c2World.store).batchPageIds =
      some (.good (c2Env.pages.map (·.id))) ∧
    (∀ p ∈ c2Env.pages, p.id ∈ c2Env.pages.map (·.id)) ∧
    ∃ w', processBatchExport c2Env c2World = .ok w' ∧
      w'.store.batchPageIds = some (.good (c2Env.pages.map (·.id))) :=
  c2_start_persists_full_queue c2Env c2World (by decide) (by decide)
    (by decide) (by decide)

/-- Claim C3 (counterexample): an item-state entry whose stored timestamp is
missing is not failed open — for entry `A` with no `lastModified` and
snapshot page `A` at `t = "100"`, the claimed condition puts `A` in
`toProcess`, but the code's comparison `undefined < "100"` is false, so `A`
is skipped. -/
theorem c3_counterexample :
    claimToProcess c3State c3Page = true ∧
    isNewOrUpdated c3State c3Page = false ∧
    pagesToProcess c3State [c3Page] = [] ∧
    (skippedPages c3State [c3Page]).map (·.status) = [Status.Skipped] := by
  decide

/-- Claim C3 (amended): an item is `toProcess` iff it is absent from the
item state, or its `last_edited_time` is present, non-empty, and the stored
`lastModified` compares strictly smaller under the JS comparison (under
which a missing stored timestamp is never smaller, so such items are
skipped, not reprocessed); on the spec's example the partition is
`toSkip = {A}`, `toProcess = {B, C}` in snapshot order. -/
theorem c3_change_detector_characterization :
    (∀ state page, isNewOrUpdated state page = true ↔
      stateLookup state page.id = none ∨
      (∃ entry t, stateLookup state page.id = some entry ∧
        page.last_edited_time = some t ∧ t ≠ "" ∧
        jsLtStr entry.lastModified t = true)) ∧
    pagesToProcess exState exPages = [⟨"B", none, "B"⟩, ⟨"C", some "150", "C"⟩] ∧
    (skippedPages exState exPages).map (·.pageId) = ["A"] := by
  refine ⟨?_, by decide, by decide⟩
  intro state page
  unfold isNewOrUpdated
  cases h : stateLookup state page.id with
  | none => simp
  | some entry =>
      cases ht : page.last_edited_time with
      | none => simp [h, ht]
      | some t =>
          by_cases he : t = ""
          · simp [h, ht, he]
          · simp [h, ht, he]

/-- Claim C7: a run attempt aborting before RunState exists (settings fail
to load, or the listing returns no pages) calls `deleteAllProperties`,
wiping the entire property store — including the stored Notion API key and
the differential change-detection baseline, which the claim (and the code's
own narrowly-scoped `cancelBatchExport`) say should survive. -/
theorem c7_abort_wipes_all_properties :
    processBatchExport c7EnvNoSettings c7World =
      .ok ⟨{}, c7World.triggerArmed, c7World.sheetRows⟩ ∧
    processBatchExport c7EnvNoPages c7World =
      .ok ⟨{}, c7World.triggerArmed, c7World.sheetRows⟩ ∧
    c7World.store.notionApiKey = some "secret-key" ∧
    ({} : Store).notionApiKey = none ∧
    c7World.store.processedPagesInfo ≠ none ∧
    ({} : Store).processedPagesInfo = none := by decide

/-- Claim C8 (counterexample): a mid-run store whose accumulated-results
property holds unparseable JSON makes the invocation throw — the engine
does not fall back to an empty default. -/
theorem c8_counterexample :
    processBatchExport c8Env c8World = .error "SyntaxError: JSON.parse" := by
  decide

/-- Unfolding of a differential-export run that passes its guards: the final
world, the returned results and the event trace, in terms of the partition
and the processing loop. -/
theorem exportDiff_spec (env : Env) (w : World) (st0 : ItemState)
    (hs : env.settingsOk = true)
    (hk : truthy w.store.notionApiKey = true)
    (hinfo : w.store.processedPagesInfo = some (.good st0))
    (hp : env.pages ≠ []) :
    exportDifferentialNotionPages env w =
      (⟨{ w.store with
            processedPagesInfo := some (.good
              (diffLoop env env.now (pagesToProcess st0 env.pages) st0).2.1),
            lastExportTimestamp := some env.now },
         w.triggerArmed,
         w.sheetRows ++
           ((diffLoop env env.now (pagesToProcess st0 env.pages) st0).1 ++
             skippedPages st0 env.pages)⟩,
       some ((diffLoop env env.now (pagesToProcess st0 env.pages) st0).1 ++
         skippedPages st0 env.pages),
       (diffLoop env env.now (pagesToProcess st0 env.pages) st0).2.2 ++
         [.persistItemState
            (diffLoop env env.now (pagesToProcess st0 env.pages) st0).2.1,
          .persistTimestamp env.now]) := by
  cases hpg : env.pages with
  | nil => exact absurd hpg hp
  | cons p rest =>
      simp only [exportDifferentialNotionPages, hs, hk, hinfo, hpg,
        Bool.not_true, if_false, ite_false]
      rfl

/-- Injectivity of `(·.id)` on a page list whose mapped ids have no
duplicates. -/
theorem page_id_inj (pages : List Page) (hnd : (pages.map (·.id)).Nodup) :
    ∀ p ∈ pages, ∀ q ∈ pages, p.id = q.id → p = q :=
  List.inj_on_of_nodup_map hnd

/-- The ids of the to-process sublist inherit the snapshot's uniqueness. -/
theorem nodup_toProcess (st0 : ItemState) (pages : List Page)
    (hnd : (pages.map (·.id)).Nodup) :
    ((pagesToProcess st0 pages).map (·.id)).Nodup :=
  List.Nodup.sublist (List.Sublist.map (·.id) (List.filter_sublist pages)) hnd

/-- A page the partition skipped shares its id with no processed page. -/
theorem skipped_id_not_processed (st0 : ItemState) (pages : List Page)
    (hnd : (pages.map (·.id)).Nodup) (p : Page) (hpmem : p ∈ pages)
    (hfalse : isNewOrUpdated st0 p = false) :
    ∀ q ∈ pagesToProcess st0 pages, q.id ≠ p.id := by
  intro q hq hEq
  have hq' := List.mem_filter.mp hq
  have hqp := page_id_inj pages hnd q hq'.1 p hpmem hEq
  rw [hqp] at hq'
  rw [hq'.2] at hfalse
  cases hfalse

/-- Claim C5 (counterexample): with two new pages both converting
successfully, the run's trace is [process A, process B, persist map,
persist timestamp] — no ItemState write occurs between A's `Success` and
B's processing, so the entry for A is not persisted immediately upon its
success; persistence is deferred to the end of the run. -/
theorem c5_counterexample :
    (exportDifferentialNotionPages c5Env c5World).2.2.get? 0 =
      some (.processed "A" .Success) ∧
    (exportDifferentialNotionPages c5Env c5World).2.2.get? 1 =
      some (.processed "B" .Success) ∧
    ((exportDifferentialNotionPages c5Env c5World).2.2.take 2).all
        (fun e => match e with
          | DiffEvent.persistItemState _ => false
          | _ => true) = true ∧
    (exportDifferentialNotionPages c5Env c5World).2.2.length = 4 := by decide

/-- Claim C5 (amended): the in-memory ItemState entry for an item is
updated exactly when that item yields `Success` (never after a failure, and
skipped items keep their entries), but the map is persisted once, after the
whole loop — the trace is all `processed` events followed by a single
ItemState write and the timestamp write, not an entry write per success. -/
theorem c5_itemstate_persistence (env : Env) (w : World) (st0 : ItemState)
    (hs : env.settingsOk = true)
    (hk : truthy w.store.notionApiKey = true)
    (hinfo : w.store.processedPagesInfo = some (.good st0))
    (hp : env.pages ≠ [])
    (hnd : (env.pages.map (·.id)).Nodup) :
    ∃ st1,
      (exportDifferentialNotionPages env w).1.store.processedPagesInfo =
        some (.good st1) ∧
      (exportDifferentialNotionPages env w).2.2 =
        (diffLoop env env.now (pagesToProcess st0 env.pages) st0).2.2 ++
          [.persistItemState st1, .persistTimestamp env.now] ∧
      (∀ e ∈ (diffLoop env env.now (pagesToProcess st0 env.pages) st0).2.2,
        ∃ id s, e = DiffEvent.processed id s) ∧
      (∀ p ∈ env.pages, isNewOrUpdated st0 p = true →
        ∀ msg fid, env.save p.id = SaveOutcome.ok msg fid →
        stateLookup st1 p.id =
          some ⟨some (orElseStr p.last_edited_time env.now), fid, p.title⟩) ∧
      (∀ p ∈ env.pages, (∀ msg fid, env.save p.id ≠ SaveOutcome.ok msg fid) →
        stateLookup st1 p.id = stateLookup st0 p.id) ∧
      (∀ p ∈ env.pages, isNewOrUpdated st0 p = false →
        stateLookup st1 p.id = stateLookup st0 p.id) := by
  refine ⟨(diffLoop env env.now (pagesToProcess st0 env.pages) st0).2.1,
    ?_, ?_, diffLoop_events env env.now _ st0, ?_, ?_, ?_⟩
  · rw [exportDiff_spec env w st0 hs hk hinfo hp]
  · rw [exportDiff_spec env w st0 hs hk hinfo hp]
  · intro p hpmem hnew msg fid hsave
    exact diffLoop_lookup_ok env env.now _ st0 p msg fid
      (nodup_toProcess st0 env.pages hnd)
      (List.mem_filter.mpr ⟨hpmem, hnew⟩) hsave
  · intro p hpmem hnotok
    by_cases hnew : isNewOrUpdated st0 p = true
    · exact diffLoop_lookup_notok env env.now _ st0 p
        (nodup_toProcess st0 env.pages hnd)
        (List.mem_filter.mpr ⟨hpmem, hnew⟩) hnotok
    · have hfalse : isNewOrUpdated st0 p = false := by
        revert hnew
        cases isNewOrUpdated st0 p <;> simp
      exact diffLoop_lookup_notin env env.now _ st0 p.id
        (skipped_id_not_processed st0 env.pages hnd p hpmem hfalse)
  · intro p hpmem hfalse
    exact diffLoop_lookup_notin env env.now _ st0 p.id
      (skipped_id_not_processed st0 env.pages hnd p hpmem hfalse)

/-- Claim C5 witness: the amended persistence behaviour at the concrete
two-page environment over an empty item state. -/
theorem c5_witness :
    ∃ st1,
      (exportDifferentialNotionPages c5Env c5GoodWorld).1.store.processedPagesInfo =
        some (.good st1) ∧
      (exportDifferentialNotionPages c5Env c5GoodWorld).2.2 =
        (diffLoop c5Env c5Env.now (pagesToProcess [] c5Env.pages) []).2.2 ++
          [.persistItemState st1, .persistTimestamp c5Env.now] ∧
      (∀ e ∈ (diffLoop c5Env c5Env.now (pagesToProcess [] c5Env.pages) []).2.2,
        ∃ id s, e = DiffEvent.processed id s) ∧
      (∀ p ∈ c5Env.pages, isNewOrUpdated [] p = true →
        ∀ msg fid, c5Env.save p.id = SaveOutcome.ok msg fid →
        stateLookup st1 p.id =
          some ⟨some (orElseStr p.last_edited_time c5Env.now), fid, p.title⟩) ∧
      (∀ p ∈ c5Env.pages, (∀ msg fid, c5Env.save p.id ≠ SaveOutcome.ok msg fid) →
        stateLookup st1 p.id = stateLookup [] p.id) ∧
      (∀ p ∈ c5Env.pages, isNewOrUpdated [] p = false →
        stateLookup st1 p.id = stateLookup [] p.id) :=
  c5_itemstate_persistence c5Env c5GoodWorld [] (by decide) (by decide) rfl
    (by decide) (by decide)

/-- Claim C6: a thrown per-item exception is caught and mapped to a `Fail`
result carrying the error message; a run driven to completion still yields
one result per queued item, in queue order, whatever the per-item outcomes;
and on the concrete ten-page snapshot whose fifth page always throws, the
run completes with nine `Success`, one `Fail`, items 6-10 processed. -/
theorem c6_partial_failure_isolation :
    (∀ env pageId m t, env.save pageId = SaveOutcome.thrown m →
      env.fetchPage pageId = FetchPage.found t →
      (processBatchItem env pageId).status = .Fail ∧
      (processBatchItem env pageId).message = "エラー: " ++ m) ∧
    (∀ env w, env.settingsOk = true →
      (w.store.batchInProgress == some "true") = false →
      w.store.batchResults = none → w.store.processedPages = none →
      env.pages ≠ [] →
      ∃ m wfin, ticks env w m = .ok wfin ∧
        wfin.sheetRows = w.sheetRows ++
          (env.pages.map (·.id)).map (processBatchItem env)) ∧
    ((ticks c6Env idleWorld 2).map
        (fun w => w.sheetRows.map (fun r => (r.pageId, r.status)))) =
      .ok [("p0", Status.Success), ("p1", Status.Success),
           ("p2", Status.Success), ("p3", Status.Success),
           ("p4", Status.Fail), ("p5", Status.Success),
           ("p6", Status.Success), ("p7", Status.Success),
           ("p8", Status.Success), ("p9", Status.Success)] := by
  refine ⟨?_, ?_, by decide⟩
  · intro env pageId m t hm ht
    simp [processBatchItem, ht, hm]
  · intro env w hs hip hbr hpp hp
    obtain ⟨m, hm⟩ := run_from_idle env w hs hip hbr hpp hp
    exact ⟨m, _, hm, rfl⟩

/-- Claim C6 witness: the containment conjuncts at the ten-page
environment whose fifth page throws. -/
theorem c6_witness :
    ((processBatchItem c6Env "p4").status = .Fail ∧
      (processBatchItem c6Env "p4").message = "エラー: " ++ "boom") ∧
    ∃ m wfin, ticks c6Env idleWorld m = .ok wfin ∧
      wfin.sheetRows = idleWorld.sheetRows ++
        (c6Env.pages.map (·.id)).map (processBatchItem c6Env) :=
  ⟨c6_partial_failure_isolation.1 c6Env "p4" "boom" "T:p4" (by decide)
      (by decide),
   c6_partial_failure_isolation.2.1 c6Env idleWorld (by decide) (by decide)
      rfl rfl (by decide)⟩

/-- Claim C4: from a clean idle store, driving `k + 1` ticks leaves the
persisted cursor at `k + 1`; re-invoking cold from that persisted world (the
invocation is a function of the persisted world alone) completes the run,
and the final recorded results equal those of a single uninterrupted pass
over the same snapshot. -/
theorem c4_resume_correctness (env : Env) (w : World) (k : Nat)
    (hs : env.settingsOk = true)
    (hip : (w.store.batchInProgress == some "true") = false)
    (hbr : w.store.batchResults = none)
    (hpp : w.store.processedPages = none)
    (hk : (k + 1) * BATCH_SIZE < env.pages.length) :
    ∃ wmid m wfin,
      ticks env w (k + 1) = .ok wmid ∧
      wmid.store.currentBatchIndex = some (k + 1) ∧
      ticks env wmid m = .ok wfin ∧
      wfin.sheetRows = w.sheetRows ++
        uninterruptedRun env (env.pages.map (·.id)) ∧
      wfin.store = clearBatchProps w.store ∧
      wfin.triggerArmed = false := by
  have hp : env.pages ≠ [] := by
    intro h
    rw [h] at hk
    simp only [List.length_nil, BATCH_SIZE] at hk
    omega
  have hbr' : w.store.batchResults ≠ some .corrupt := by
    rw [hbr]
    exact fun h => by cases h
  have hend : ¬ env.pages.length ≤ BATCH_SIZE := by
    simp only [BATCH_SIZE] at hk ⊢
    omega
  have hlen : (env.pages.map (·.id)).length = env.pages.length := by
    rw [List.length_map]
  have h1 : processBatchExport env w =
      .ok ⟨midStore env (env.pages.map (·.id)) env.now 1 w.store, true,
           w.sheetRows ++ seg env (env.pages.map (·.id)) 0 1⟩ := by
    rw [tick_start env w hs hip hbr' hp, if_neg hend, hpp]
    rw [show ((none : Option Nat).getD 0) = 0 from rfl, afterStartChunk_zero,
      chunkOf_zero]
  have h2 : ticks env w (k + 1) =
      .ok ⟨midStore env (env.pages.map (·.id)) env.now (1 + k) w.store, true,
           w.sheetRows ++ seg env (env.pages.map (·.id)) 0 (1 + k)⟩ := by
    rw [ticks_succ, h1]
    show ticks env ⟨midStore env (env.pages.map (·.id)) env.now 1 w.store,
        true, w.sheetRows ++ seg env (env.pages.map (·.id)) 0 1⟩ k = _
    exact ticks_mid env (env.pages.map (·.id)) env.now w.store w.sheetRows k
      hs 1 (by rw [hlen]; simp only [BATCH_SIZE] at hk ⊢; omega)
  obtain ⟨m, hm⟩ := ticks_finish_aux env (env.pages.map (·.id)) env.now
    w.store hs (env.pages.map (·.id)).length (1 + k)
    (w.sheetRows ++ seg env (env.pages.map (·.id)) 0 (1 + k))
    (by rw [hlen]; simp only [BATCH_SIZE] at hk ⊢; omega)
    (by rw [hlen]; simp only [BATCH_SIZE] at hk ⊢; omega)
  refine ⟨_, m, _, h2, ?_, hm, ?_, rfl, rfl⟩
  · show some (1 + k) = some (k + 1)
    rw [Nat.add_comm]
  · show (w.sheetRows ++ seg env (env.pages.map (·.id)) 0 (1 + k)) ++
        ((env.pages.map (·.id)).drop ((1 + k) * BATCH_SIZE)).map
          (processBatchItem env) =
      w.sheetRows ++ uninterruptedRun env (env.pages.map (·.id))
    rw [List.append_assoc]
    congr 1
    rw [seg_zero_take, uninterruptedRun, ← List.map_append,
      List.take_append_drop]

/-- Claim C4 witness: resume correctness at the concrete seven-page,
two-chunk environment, interrupted after chunk 0. -/
theorem c4_witness :
    ∃ wmid m wfin,
      ticks c4Env idleWorld (0 + 1) = .ok wmid ∧
      wmid.store.currentBatchIndex = some (0 + 1) ∧
      ticks c4Env wmid m = .ok wfin ∧
      wfin.sheetRows = idleWorld.sheetRows ++
        uninterruptedRun c4Env (c4Env.pages.map (·.id)) ∧
      wfin.store = clearBatchProps idleWorld.store ∧
      wfin.triggerArmed = false :=
  c4_resume_correctness c4Env idleWorld 0 (by decide) (by decide) rfl rfl
    (by decide)

/-- Claim C8 (amended): only the differential exporter's ItemState read is
self-healing — an unparseable map is replaced by the empty default and the
run proceeds identically; the batch engine's accumulated-results and
item-queue reads are unguarded, so unparseable JSON there throws and fails
the invocation. -/
theorem c8_corruption_defaults :
    (∀ env : Env, ∀ w : World, env.settingsOk = true →
      truthy w.store.notionApiKey = true → env.pages ≠ [] →
      exportDifferentialNotionPages env
          ⟨{ w.store with processedPagesInfo := some .corrupt },
           w.triggerArmed, w.sheetRows⟩ =
        exportDifferentialNotionPages env
          ⟨{ w.store with processedPagesInfo := some (.good []) },
           w.triggerArmed, w.sheetRows⟩) ∧
    (∀ env : Env, ∀ w : World, env.settingsOk = true →
      w.store.batchResults = some .corrupt →
      processBatchExport env w = .error "SyntaxError: JSON.parse") ∧
    (∀ env : Env, ∀ w : World, env.settingsOk = true →
      (w.store.batchInProgress == some "true") = true →
      w.store.batchResults ≠ some .corrupt →
      w.store.batchPageIds = some .corrupt →
      ∃ e, processBatchExport env w = .error e) := by
  refine ⟨?_, ?_, ?_⟩
  · intro env w hs hk hp
    cases hpg : env.pages with
    | nil => exact absurd hpg hp
    | cons p rest =>
        simp only [exportDifferentialNotionPages, hs, hk, hpg,
          Bool.not_true, if_false, ite_false]
        rfl
  · intro env w hs hcor
    simp [processBatchExport, hs, hcor, parseBatchResults]
  · intro env w hs hip hbr hq
    have hpr : ∃ rs, parseBatchResults w.store.batchResults = .ok rs := by
      cases hb : w.store.batchResults with
      | none => exact ⟨[], rfl⟩
      | some v =>
          cases v with
          | good rs => exact ⟨rs, rfl⟩
          | corrupt => exact absurd hb hbr
    obtain ⟨rs, hrs⟩ := hpr
    refine ⟨"SyntaxError: JSON.parse", ?_⟩
    simp [processBatchExport, hs, hip, hrs, runChunk, hq]

/-- Claim C8 witness: the three corruption behaviours at concrete corrupt
stores. -/
theorem c8_witness :
    (exportDifferentialNotionPages c8Env
        ⟨{ c5World.store with processedPagesInfo := some .corrupt },
         c5World.triggerArmed, c5World.sheetRows⟩ =
      exportDifferentialNotionPages c8Env
        ⟨{ c5World.store with processedPagesInfo := some (.good []) },
         c5World.triggerArmed, c5World.sheetRows⟩) ∧
    processBatchExport c8Env c8World = .error "SyntaxError: JSON.parse" ∧
    ∃ e, processBatchExport c8Env c8QueueWorld = .error e :=
  ⟨c8_corruption_defaults.1 c8Env c5World (by decide) (by decide) (by decide),
   c8_corruption_defaults.2.1 c8Env c8World (by decide) (by decide),
   c8_corruption_defaults.2.2 c8Env c8QueueWorld (by decide) (by decide)
     (by decide) (by decide)⟩

/-- The change-detection verdict depends only on the stored entry for the
page's id. -/
theorem isNewOrUpdated_eq_of_lookup_eq (s1 s2 : ItemState) (p : Page)
    (h : stateLookup s1 p.id = stateLookup s2 p.id) :
    isNewOrUpdated s1 p = isNewOrUpdated s2 p := by
  unfold isNewOrUpdated
  rw [h]

/-- Claim C9 (counterexample): with one page whose conversion always fails,
the first run completes with a `Fail`; a second run over the unchanged
snapshot reprocesses the page and yields `Fail` again — not `Skipped` — so
the second run is not all-`Skipped` as claimed. -/
theorem c9_counterexample :
    ((exportDifferentialNotionPages c9Env c9World1).2.1).map
        (fun rs => rs.map (·.status)) = some [Status.Fail] ∧
    Status.Fail ≠ Status.Skipped := by decide

/-- Claim C9 (amended): when the first run's conversions all succeed,
running again with no source changes yields exactly one result per item,
all `Skipped` and none `Success`, and the persisted ItemState after the
second run equals the ItemState the first run left. -/
theorem c9_idempotence_on_success (env : Env) (w : World) (st0 : ItemState)
    (hs : env.settingsOk = true)
    (hk : truthy w.store.notionApiKey = true)
    (hinfo : w.store.processedPagesInfo = some (.good st0))
    (hp : env.pages ≠ [])
    (hnd : (env.pages.map (·.id)).Nodup)
    (hok : ∀ p ∈ env.pages, ∃ msg fid, env.save p.id = SaveOutcome.ok msg fid) :
    ∃ rs2,
      (exportDifferentialNotionPages env
          (exportDifferentialNotionPages env w).1).2.1 = some rs2 ∧
      rs2.length = env.pages.length ∧
      (∀ r ∈ rs2, r.status = Status.Skipped) ∧
      (∀ r ∈ rs2, r.status ≠ Status.Success) ∧
      (exportDifferentialNotionPages env
          (exportDifferentialNotionPages env w).1).1.store.processedPagesInfo =
        (exportDifferentialNotionPages env w).1.store.processedPagesInfo := by
  have hspec1 := exportDiff_spec env w st0 hs hk hinfo hp
  have hw1store : (exportDifferentialNotionPages env w).1.store =
      { w.store with
          processedPagesInfo := some (.good
            (diffLoop env env.now (pagesToProcess st0 env.pages) st0).2.1),
          lastExportTimestamp := some env.now } := by
    rw [hspec1]
  have hskip : ∀ p ∈ env.pages,
      isNewOrUpdated
        (diffLoop env env.now (pagesToProcess st0 env.pages) st0).2.1 p =
        false := by
    intro p hpmem
    by_cases hnew : isNewOrUpdated st0 p = true
    · obtain ⟨msg, fid, hsave⟩ := hok p hpmem
      have hlook := diffLoop_lookup_ok env env.now _ st0 p msg fid
        (nodup_toProcess st0 env.pages hnd)
        (List.mem_filter.mpr ⟨hpmem, hnew⟩) hsave
      unfold isNewOrUpdated
      rw [hlook]
      cases ht : p.last_edited_time with
      | none => rfl
      | some t =>
          by_cases he : t = ""
          · simp [he]
          · simp only [he, if_false, ite_false]
            rw [show orElseStr (some t) env.now = t from by simp [orElseStr, he]]
            simp [jsLtStr, strLtB_irrefl]
    · have hfalse : isNewOrUpdated st0 p = false := by
        revert hnew
        cases isNewOrUpdated st0 p <;> simp
      have hlook := diffLoop_lookup_notin env env.now _ st0 p.id
        (skipped_id_not_processed st0 env.pages hnd p hpmem hfalse)
      rw [isNewOrUpdated_eq_of_lookup_eq _ _ p hlook, hfalse]
  have hk1 : truthy
      (exportDifferentialNotionPages env w).1.store.notionApiKey = true := by
    rw [hw1store]
    exact hk
  have hinfo1 : (exportDifferentialNotionPages env w).1.store.processedPagesInfo =
      some (.good (diffLoop env env.now (pagesToProcess st0 env.pages) st0).2.1) := by
    rw [hw1store]
  have hspec2 := exportDiff_spec env (exportDifferentialNotionPages env w).1
    (diffLoop env env.now (pagesToProcess st0 env.pages) st0).2.1
    hs hk1 hinfo1 hp
  have htp2 : pagesToProcess
      (diffLoop env env.now (pagesToProcess st0 env.pages) st0).2.1
      env.pages = [] :=
    List.filter_eq_nil_iff.mpr (fun a ha => by simp [hskip a ha])
  have hsk2 : skippedPages
      (diffLoop env env.now (pagesToProcess st0 env.pages) st0).2.1
      env.pages =
      env.pages.map (skippedResult
        (diffLoop env env.now (pagesToProcess st0 env.pages) st0).2.1) := by
    unfold skippedPages
    rw [List.filter_eq_self.mpr (fun a ha => by simp [hskip a ha])]
  refine ⟨env.pages.map (skippedResult
    (diffLoop env env.now (pagesToProcess st0 env.pages) st0).2.1),
    ?_, by rw [List.length_map], ?_, ?_, ?_⟩
  · rw [hspec2, htp2, hsk2]
    rfl
  · intro r hr
    obtain ⟨q, _, hq⟩ := List.mem_map.mp hr
    rw [← hq]
    rfl
  · intro r hr
    obtain ⟨q, _, hq⟩ := List.mem_map.mp hr
    rw [← hq]
    exact fun h => by cases h
  · rw [hspec2, htp2, hinfo1]
    rfl

/-- Claim C9 witness: idempotence at a concrete one-page environment whose
conversion succeeds, starting from an empty item state. -/
theorem c9_witness :
    ∃ rs2,
      (exportDifferentialNotionPages c8Env
          (exportDifferentialNotionPages c8Env c5GoodWorld).1).2.1 = some rs2 ∧
      rs2.length = c8Env.pages.length ∧
      (∀ r ∈ rs2, r.status = Status.Skipped) ∧
      (∀ r ∈ rs2, r.status ≠ Status.Success) ∧
      (exportDifferentialNotionPages c8Env
          (exportDifferentialNotionPages c8Env c5GoodWorld).1).1.store.processedPagesInfo =
        (exportDifferentialNotionPages c8Env c5GoodWorld).1.store.processedPagesInfo :=
  c9_idempotence_on_success c8Env c5GoodWorld [] (by decide) (by decide) rfl
    (by decide) (by decide)
    (fun p hp => ⟨"saved", "fA", by
      have : p.id = "A" := by
        cases hp with
        | head => rfl
        | tail _ h => cases h
      rfl⟩)

/-- Claim C10 (counterexample): `startBatchExport` against a mid-run store
whose processed counter reads 7 leaves `PROCESSED_PAGES = 12` after the
fresh first chunk of a six-page snapshot, where a start from a clean store
leaves 5 — the previous run's processed count is not discarded. -/
theorem c10_counterexample :
    (startBatchExport c10Env c10World).map
        (fun w => w.store.processedPages) = .ok (some 12) ∧
    (startBatchExport c10Env c10CleanWorld).map
        (fun w => w.store.processedPages) = .ok (some 5) ∧
    (12 : Nat) ≠ 5 := by decide

/-- Claim C10 (amended): `startBatchExport` during a run does not fail and
does not resume: it clears the in-progress flag, cancels the armed trigger,
and begins a fresh run over a newly captured snapshot — cursor restarts
(chunk 0 is processed, leaving cursor 1), the accumulated results restart
from the new first chunk, and the trigger is re-armed; the previous run's
processed-pages count, however, carries over into the new counter. -/
theorem c10_start_restarts_fresh (env : Env) (w : World)
    (hk : truthy w.store.notionApiKey = true)
    (hs : env.settingsOk = true)
    (hbr : w.store.batchResults ≠ some .corrupt)
    (hp5 : BATCH_SIZE < env.pages.length) :
    ∃ w', startBatchExport env w = .ok w' ∧
      w'.store.batchPageIds = some (.good (env.pages.map (·.id))) ∧
      w'.store.currentBatchIndex = some 1 ∧
      w'.store.batchResults =
        some (.good (chunkOf env (env.pages.map (·.id)) 0)) ∧
      w'.store.batchStartedAt = some env.now ∧
      w'.triggerArmed = true ∧
      w'.store.processedPages =
        some (w.store.processedPages.getD 0 + min BATCH_SIZE env.pages.length) := by
  have hp : env.pages ≠ [] := by
    intro h
    rw [h] at hp5
    simp [BATCH_SIZE] at hp5
  have hstart : startBatchExport env w = processBatchExport env
      ⟨{ w.store with batchInProgress := none }, false, w.sheetRows⟩ := by
    simp [startBatchExport, hk, hs]
  rw [hstart, tick_start env
    ⟨{ w.store with batchInProgress := none }, false, w.sheetRows⟩ hs rfl hbr hp,
    if_neg (by omega)]
  refine ⟨_, rfl, rfl, rfl, rfl, rfl, rfl, ?_⟩
  show some (w.store.processedPages.getD 0 +
      min BATCH_SIZE (env.pages.map (·.id)).length) = _
  rw [List.length_map]

/-- Claim C10 witness: the restart behaviour at the concrete mid-run store
and six-page fresh snapshot. -/
theorem c10_witness :
    ∃ w', startBatchExport c10Env c10World = .ok w' ∧
      w'.store.batchPageIds = some (.good (c10Env.pages.map (·.id))) ∧
      w'.store.currentBatchIndex = some 1 ∧
      w'.store.batchResults =
        some (.good (chunkOf c10Env (c10Env.pages.map (·.id)) 0)) ∧
      w'.store.batchStartedAt = some c10Env.now ∧
      w'.triggerArmed = true ∧
      w'.store.processedPages =
        some (c10World.store.processedPages.getD 0 +
          min BATCH_SIZE c10Env.pages.length) :=
  c10_start_restarts_fresh c10Env c10World (by decide) (by decide)
    (by decide) (by decide)

end NotionExport
